import Mathlib

/-!
Verification of the dummyxarray multi-file federation core.

This file gives a shallow embedding, in Lean 4, of the parts of the
`dummyxarray` Python package that the specification's claims are about:

* `src/dummyxarray/mixins/file_tracker.py` — the per-dataset file registry
  (`enable_file_tracking`, `add_file_source`, `get_source_files`,
  `_ranges_overlap`);
* `src/dummyxarray/time_utils.py` — frequency inference
  (`infer_time_frequency`) and period planning (`create_time_periods`);
* `src/dummyxarray/mfdataset.py` — cross-file compatibility validation
  (`_validate_file_compatibility`) and metadata merging
  (`_combine_file_metadata`).

Python dictionaries are embedded as insertion-ordered association lists
(`assocSet` reproduces `d[k] = v`: overwrite in place, append new keys at
the end).  The external `cftime` library is modelled at the interface
boundary the spec fixes for it (a TimestampDecoder producing timestamps
that support subtraction and comparison); numeric coordinate values and
decoded offsets are embedded as exact rationals, calendar datetimes as
explicit field records with per-calendar day arithmetic.
-/

namespace DummyXarray

/-- Association-list lookup keyed on strings; returns the first binding,
matching Python dictionary indexing `d[k]` (dictionaries have unique keys,
so first = only). -/
def alookup {α : Type} : List (String × α) → String → Option α
  | [], _ => none
  | (k, v) :: rest, k' => if k' = k then some v else alookup rest k'

/-- Insert-or-overwrite for an insertion-ordered association list,
mirroring Python `d[k] = v`: an existing key keeps its position and gets
the new value, a new key is appended at the end. -/
def assocSet {α : Type} : List (String × α) → String → α → List (String × α)
  | [], k, v => [(k, v)]
  | (k0, v0) :: rest, k, v =>
      if k0 = k then (k, v) :: rest else (k0, v0) :: assocSet rest k v

theorem alookup_assocSet_self {α : Type} (l : List (String × α)) (k : String) (v : α) :
    alookup (assocSet l k v) k = some v := by
  induction l with
  | nil => simp [assocSet, alookup]
  | cons hd tl ih =>
    by_cases h : hd.1 = k
    · simp [assocSet, h, alookup]
    · simpa [assocSet, h, alookup, Ne.symm h] using ih

theorem alookup_assocSet_ne {α : Type} (l : List (String × α)) (k k' : String) (v : α)
    (h : k' ≠ k) : alookup (assocSet l k v) k' = alookup l k' := by
  induction l with
  | nil => simp [assocSet, alookup, h]
  | cons hd tl ih =>
    by_cases h0 : hd.1 = k
    · subst h0
      simp [assocSet, alookup, h]
    · simp only [assocSet, h0, if_false, alookup]
      by_cases h1 : k' = hd.1 <;> simp [h1, ih]

theorem alookup_eq_none_of_not_mem {α : Type} (l : List (String × α)) (k : String)
    (h : k ∉ l.map Prod.fst) : alookup l k = none := by
  induction l with
  | nil => rfl
  | cons hd tl ih =>
    simp only [List.map_cons, List.mem_cons] at h
    push_neg at h
    simp [alookup, h.1, ih h.2]

/-! ### File registry (`mixins/file_tracker.py`)

The mixin's mutable fields `_file_sources`, `_concat_dim` and
`_file_tracking_enabled` become an explicit state record; methods that
mutate the object become functions from state to state (or to
`Except String state` where the Python method can raise `RuntimeError`).
Coordinate-range endpoints are embedded as `Option Int`: `none` is
Python's `None` (an unbounded side).  The Python `except (TypeError,
ValueError)` fallback for cross-type comparisons cannot arise in the
integer-valued model, where every comparison succeeds. -/

structure SourceInfo where
  coordRange : Option Int × Option Int
  concatDim : Option String
  metadata : List (String × String)
deriving DecidableEq, Repr

structure FileTrackerState where
  fileSources : List (String × SourceInfo)
  concatDim : Option String
  enabled : Bool
deriving DecidableEq, Repr

/-- State established by `FileTrackerMixin.__init__`: no sources, no
concatenation dimension, tracking disabled. -/
def initFileTracker : FileTrackerState :=
  { fileSources := [], concatDim := none, enabled := false }

/-- Embedding of `FileTrackerMixin.enable_file_tracking`. -/
def enable_file_tracking (st : FileTrackerState) (concat_dim : String) : FileTrackerState :=
  { st with enabled := true, concatDim := some concat_dim, fileSources := [] }

/-- Embedding of `FileTrackerMixin.add_file_source`; the Python
`raise RuntimeError(...)` before the dictionary write becomes an
`Except.error` carrying the message, so on error no entry is registered. -/
def add_file_source (st : FileTrackerState) (filepath : String)
    (coord_range : Option Int × Option Int) (metadata : List (String × String)) :
    Except String FileTrackerState :=
  if st.enabled = false then
    Except.error "File tracking not enabled. Call enable_file_tracking() first."
  else
    Except.ok { st with
      fileSources := assocSet st.fileSources filepath
        { coordRange := coord_range, concatDim := st.concatDim, metadata := metadata } }

/-- Embedding of `FileTrackerMixin._ranges_overlap`: any `None` bound
means full overlap; otherwise the strict predicate
`start1 < stop2 and start2 < stop1`. -/
def _ranges_overlap (start1 stop1 start2 stop2 : Option Int) : Bool :=
  match start1, stop1, start2, stop2 with
  | some a, some b, some c, some d => decide (a < d) && decide (c < b)
  | _, _, _, _ => true

/-- A selector argument to `get_source_files`: either a Python
`slice(start, stop)` or a single-value selection. -/
inductive SliceArg where
  | slice (start stop : Option Int)
  | single (v : Int)
deriving DecidableEq, Repr

/-- Embedding of `FileTrackerMixin.get_source_files`: resolves the slice
from the positional argument or the keyword selector for the concat
dimension, returns all files when no slice is given, and otherwise filters
by `_ranges_overlap` in registration order. -/
def get_source_files (st : FileTrackerState) (coord_slice : Option SliceArg)
    (coord_selectors : List (String × SliceArg)) : List String :=
  if st.enabled = false then []
  else
    let cs : Option SliceArg :=
      match coord_slice, st.concatDim with
      | none, some cd => alookup coord_selectors cd
      | cs, _ => cs
    match cs with
    | none => st.fileSources.map Prod.fst
    | some s =>
      let bounds : Option Int × Option Int :=
        match s with
        | SliceArg.slice a b => (a, b)
        | SliceArg.single v => (some v, some v)
      (st.fileSources.filter
        (fun p => _ranges_overlap bounds.1 bounds.2 p.2.coordRange.1 p.2.coordRange.2)).map
        Prod.fst

/-- Registry with entries `A=(0,10)`, `B=(10,20)`, `C=(20,30)` built
through the public API, as in the spec's registry-overlap test. -/
def c4Registry : Except String FileTrackerState :=
  add_file_source (enable_file_tracking initFileTracker "time") "A" (some 0, some 10) []
    >>= fun st => add_file_source st "B" (some 10, some 20) []
    >>= fun st => add_file_source st "C" (some 20, some 30) []

/-- C4: the overlap query uses the strict predicate
`a_lo < b_hi AND b_lo < a_hi`; on the registry `A=(0,10)`, `B=(10,20)`,
`C=(20,30)` a query for `(5,15)` returns exactly `[A, B]` (the boundary
touch of `B`/`C` at 20 is excluded), and a query with no selector returns
all three sources in registration order. -/
theorem get_source_files_strict_overlap :
    (∀ a b c d : Int,
      _ranges_overlap (some a) (some b) (some c) (some d)
        = (decide (a < d) && decide (c < b)))
    ∧ c4Registry.map
        (fun st =>
          (get_source_files st (some (SliceArg.slice (some 5) (some 15))) [],
           get_source_files st none []))
      = Except.ok (["A", "B"], ["A", "B", "C"]) := by
  exact ⟨fun a b c d => rfl, rfl⟩

/-- Registry with the single entry `F=(20,30)`, used to exhibit the
behaviour of a half-unbounded selector. -/
def c6Registry : Except String FileTrackerState :=
  add_file_source (enable_file_tracking initFileTracker "time") "F" (some 20, some 30) []

/-- C6 counterexample: with the single entry `F=(20,30)`, the selector
`slice(None, 5)` has a bounded stop of 5 and `F` lies entirely above it
(`5 ≤ 20`), yet the query still returns `F` — the code treats any `None`
bound as full overlap, so the bounded side does not constrain the result. -/
theorem get_source_files_unbounded_counterexample :
    c6Registry.map
        (fun st => get_source_files st (some (SliceArg.slice none (some 5))) [])
      = Except.ok ["F"]
    ∧ (5 : Int) ≤ 20 := by
  exact ⟨rfl, by norm_num⟩

/-- C6 amended: whenever any bound among the selector's start/stop and the
entry's start/stop is `None`, `_ranges_overlap` reports `true`
unconditionally, so a selector with an unbounded side matches every
registered entry regardless of its bounded side. -/
theorem ranges_overlap_none_unconditional :
    (∀ a b c d : Option Int,
      (a = none ∨ b = none ∨ c = none ∨ d = none) → _ranges_overlap a b c d = true)
    ∧ (∀ (st : FileTrackerState) (stop : Option Int),
        st.enabled = true →
        get_source_files st (some (SliceArg.slice none stop)) []
          = st.fileSources.map Prod.fst) := by
  constructor
  · intro a b c d h
    cases a <;> cases b <;> cases c <;> cases d <;> simp_all [_ranges_overlap]
  · intro st stop hen
    simp only [get_source_files, hen]
    norm_num
    have hfilter :
        st.fileSources.filter
            (fun p => _ranges_overlap none stop p.2.coordRange.1 p.2.coordRange.2)
          = st.fileSources := by
      apply List.filter_eq_self.mpr
      intro p _
      cases stop <;> rfl
    rw [hfilter]

/-- Witness for the amended C6 theorem at concrete inputs. -/
theorem ranges_overlap_none_unconditional_witness :
    _ranges_overlap none (some 5) (some 20) (some 30) = true
    ∧ get_source_files
        { fileSources := [("F", { coordRange := (some 20, some 30), concatDim := some "time",
                                  metadata := [] })],
          concatDim := some "time", enabled := true }
        (some (SliceArg.slice none (some 5))) [] = ["F"] := by
  refine ⟨ranges_overlap_none_unconditional.1 none (some 5) (some 20) (some 30) (Or.inl rfl), ?_⟩
  exact ranges_overlap_none_unconditional.2 _ (some 5) rfl

/-- C8: calling `add_file_source` on a registry whose tracking flag is not
enabled fails with the `RuntimeError` message and returns no new state, so
nothing is registered. -/
theorem add_file_source_before_enable_fails (st : FileTrackerState) (fp : String)
    (r : Option Int × Option Int) (md : List (String × String))
    (h : st.enabled = false) :
    add_file_source st fp r md
        = Except.error "File tracking not enabled. Call enable_file_tracking() first."
    ∧ ∀ st' : FileTrackerState, add_file_source st fp r md ≠ Except.ok st' := by
  refine ⟨by simp [add_file_source, h], ?_⟩
  intro st' hok
  rw [show add_file_source st fp r md
      = Except.error "File tracking not enabled. Call enable_file_tracking() first."
    from by simp [add_file_source, h]] at hok
  exact Except.noConfusion hok

/-- Witness for C8 on the freshly initialized tracker state. -/
theorem add_file_source_before_enable_fails_witness :
    initFileTracker.enabled = false
    ∧ add_file_source initFileTracker "file1.nc" (some 0, some 10) []
        = Except.error "File tracking not enabled. Call enable_file_tracking() first." :=
  ⟨rfl, (add_file_source_before_enable_fails initFileTracker "file1.nc"
      (some 0, some 10) [] rfl).1⟩

/-- C10: `enable_file_tracking` resets the registry regardless of its
previous contents: afterwards the source table is empty, the concat
dimension is the newly supplied one, and tracking is enabled. -/
theorem enable_file_tracking_resets (st : FileTrackerState) (cd : String) :
    (enable_file_tracking st cd).fileSources = []
    ∧ (enable_file_tracking st cd).concatDim = some cd
    ∧ (enable_file_tracking st cd).enabled = true :=
  ⟨rfl, rfl, rfl⟩

/-! ### Frequency inference (`time_utils.infer_time_frequency`)

The external `cftime.num2date` decoder is modelled at the interface
boundary the spec fixes (§6): a decoded timestamp is represented by its
offset in seconds from the units string's reference instant, so that the
`times[i+1] - times[i]` subtractions of the source are exact rational
subtractions.  Decoding fails (Python raises, absorbed by the
`except Exception` of `infer_time_frequency`) when the units string does
not split as `"<unit> since <reference>"`, the unit word is not in the
decoder's vocabulary, the reference is not an ISO-like date, or the
calendar name is unknown.  Range limits of Python `datetime` are not
modelled.  String parsing is carried out on character lists with
structural recursion so that every function evaluates by kernel
reduction. -/

/-- Tests whether the second character list starts with the first. -/
def leadMatch : List Char → List Char → Bool
  | [], _ => true
  | _ :: _, [] => false
  | a :: as, b :: bs => decide (a = b) && leadMatch as bs

/-- Worker for `splitSeq`; the fuel argument is initialized to the input
length, and every recursive call consumes at least one character. -/
def splitSeqAux (sep : List Char) : Nat → List Char → List Char → List (List Char)
  | 0, s, acc => [acc.reverse ++ s]
  | fuel + 1, s, acc =>
    match s with
    | [] => [acc.reverse]
    | c :: rest =>
      if leadMatch sep (c :: rest) then
        acc.reverse :: splitSeqAux sep fuel ((c :: rest).drop sep.length) []
      else
        splitSeqAux sep fuel rest (c :: acc)

/-- Splits a character list at every occurrence of a nonempty separator,
with the semantics of Python `str.split(sep)`. -/
def splitSeq (s sep : List Char) : List (List Char) :=
  if sep.isEmpty then [s] else splitSeqAux sep s.length s []

/-- Strips leading and trailing spaces from a character list. -/
def trimChars (s : List Char) : List Char :=
  ((s.dropWhile (fun c => decide (c = ' '))).reverse.dropWhile
    (fun c => decide (c = ' '))).reverse

/-- Parses a nonempty all-digit character list as a natural number. -/
def parseNatChars (s : List Char) : Option Nat :=
  if s.isEmpty then none
  else if s.all (fun c => decide ('0' ≤ c) && decide (c ≤ '9')) then
    some (s.foldl (fun n c => 10 * n + (c.toNat - 48)) 0)
  else none

/-- Calendar names accepted by the modelled decoder (cftime's vocabulary). -/
def validCalendar (c : String) : Bool :=
  ["standard", "gregorian", "proleptic_gregorian", "julian",
   "noleap", "365_day", "all_leap", "366_day", "360_day"].contains c

/-- Seconds per unit word of a CF units string, for the unit vocabulary
cftime accepts (sub-second units are exact rationals). -/
def unitSeconds (u : List Char) : Option ℚ :=
  if ["seconds", "second", "sec", "secs", "s"].any (fun w => decide (u = w.data)) then
    some 1
  else if ["minutes", "minute", "min", "mins"].any (fun w => decide (u = w.data)) then
    some 60
  else if ["hours", "hour", "hr", "hrs", "h"].any (fun w => decide (u = w.data)) then
    some 3600
  else if ["days", "day", "d"].any (fun w => decide (u = w.data)) then
    some 86400
  else if ["milliseconds", "millisecond", "millisec", "millisecs",
           "msec", "msecs", "ms"].any (fun w => decide (u = w.data)) then
    some (1 / 1000)
  else if ["microseconds", "microsecond", "microsec", "microsecs",
           "usec", "usecs", "us"].any (fun w => decide (u = w.data)) then
    some (1 / 1000000)
  else none

/-- Splits a units string at `" since "` into unit part and reference
part, requiring exactly one occurrence of the separator. -/
def splitUnits (units : String) : Option (List Char × List Char) :=
  match splitSeq units.data " since ".data with
  | [u, r] => some (u, r)
  | _ => none

/-- Validity of the date component of a reference string (`Y-M-D`). -/
def validDatePart (s : List Char) : Bool :=
  match splitSeq s "-".data with
  | [y, m, d] =>
    match parseNatChars y, parseNatChars m, parseNatChars d with
    | some _, some mv, some dv =>
        decide (1 ≤ mv) && decide (mv ≤ 12) && decide (1 ≤ dv) && decide (dv ≤ 31)
    | _, _, _ => false
  | _ => false

/-- Validity of the optional time component of a reference string (`h:m:s`). -/
def validTimePart (s : List Char) : Bool :=
  match splitSeq s ":".data with
  | [h, mi, sec] =>
    match parseNatChars h, parseNatChars mi, parseNatChars sec with
    | some hv, some miv, some sv =>
        decide (hv < 24) && decide (miv < 60) && decide (sv < 60)
    | _, _, _ => false
  | _ => false

/-- Validity of the full reference part after `" since "`. -/
def validRefString (s : List Char) : Bool :=
  match splitSeq (trimChars s) " ".data with
  | [d] => validDatePart d
  | [d, t] => validDatePart d && validTimePart t
  | _ => false

/-- Model of `cftime.num2date` at the spec's TimestampDecoder boundary:
on success, each numeric value is mapped to its offset in seconds from
the reference instant; `none` models a raised exception. -/
def cfDecode (values : List ℚ) (units calendar : String) : Option (List ℚ) :=
  match splitUnits units with
  | some (unitPart, refPart) =>
    match unitSeconds (trimChars unitPart) with
    | some k =>
        if validRefString refPart && validCalendar calendar then
          some (values.map (fun v => v * k))
        else none
    | none => none
  | none => none

/-- The consecutive differences `times[i+1] - times[i]` computed by the
delta loop of `infer_time_frequency`. -/
def consecutiveDeltas (times : List ℚ) : List ℚ :=
  List.zipWith (fun a b => a - b) times.tail times

/-- Embedding of the delta-to-token conversion of `infer_time_frequency`
(the branch cascade on `total_seconds`): the float tests
`total_seconds % u == 0` and truncations `int(total_seconds / u)` are
exact on the rational model — `q / u` is an integer iff its denominator
is 1, and then equals its numerator. -/
def freqFromSeconds (total_seconds : ℚ) : Option String :=
  if (total_seconds / 3600).den = 1 then
    let hours : Int := (total_seconds / 3600).num
    if hours = 1 then some "1H"
    else if hours = 3 then some "3H"
    else if hours = 6 then some "6H"
    else if hours = 12 then some "12H"
    else if hours = 24 then some "1D"
    else some (toString hours ++ "H")
  else if (total_seconds / 86400).den = 1 then
    let days : Int := (total_seconds / 86400).num
    if days = 1 then some "1D" else some (toString days ++ "D")
  else if (total_seconds / 60).den = 1 then
    let minutes : Int := (total_seconds / 60).num
    if minutes = 1 then some "1T"
    else if minutes = 15 then some "15T"
    else if minutes = 30 then some "30T"
    else some (toString minutes ++ "T")
  else if total_seconds.den = 1 then
    some (toString total_seconds.num ++ "S")
  else none

/-- Embedding of the part of `infer_time_frequency` after the deltas are
computed: `if not deltas: return None`, the tolerance loop comparing each
later delta with `avg_delta = deltas[0]`, then the branch cascade. -/
def deltasToFreq : List ℚ → Option String
  | [] => none
  | avg_delta :: rest =>
    if rest.any (fun delta => decide (1 < |delta - avg_delta|)) then none
    else freqFromSeconds avg_delta

/-- Embedding of `time_utils.infer_time_frequency`: fewer than two values
give `None`; the first up-to-10 values are decoded; the consecutive
deltas are checked and converted by `deltasToFreq`.  A decoding failure
is absorbed into `none`. -/
def infer_time_frequency (coord_values : List ℚ) (units : String)
    (calendar : String) : Option String :=
  if coord_values.length < 2 then none
  else
    match cfDecode (coord_values.take 10) units calendar with
    | none => none
    | some times => deltasToFreq (consecutiveDeltas times)

/-- Unfolding lemma: once the decode result and the deltas are known, the
inference reduces to the tolerance test and the branch cascade on the
first delta. -/
theorem infer_time_frequency_eval (vs : List ℚ) (u c : String) (ts : List ℚ)
    (d0 : ℚ) (rest : List ℚ)
    (hlen : ¬ vs.length < 2)
    (hdec : cfDecode (vs.take 10) u c = some ts)
    (hds : consecutiveDeltas ts = d0 :: rest) :
    infer_time_frequency vs u c
      = if rest.any (fun delta => decide (1 < |delta - d0|)) then none
        else freqFromSeconds d0 := by
  unfold infer_time_frequency
  rw [if_neg hlen]
  split
  · next heq => rw [hdec] at heq; cases heq
  · next times heq =>
    rw [hdec] at heq
    injection heq with heq
    subst heq
    rw [hds, deltasToFreq]

/-- C9: frequency inference is total — the embedding returns an
`Option String` by construction — and any decoding failure of the
timestamp decoder is absorbed into the `none` result rather than
propagating as an error. -/
theorem infer_time_frequency_decode_failure (vs : List ℚ) (u c : String)
    (h : cfDecode (vs.take 10) u c = none) :
    infer_time_frequency vs u c = none := by
  unfold infer_time_frequency
  split
  · rfl
  · rw [h]

/-- Witness for C9 at a malformed units string. -/
theorem infer_time_frequency_decode_failure_witness :
    cfDecode ([(0 : ℚ), 1].take 10) "bogus units" "standard" = none
    ∧ infer_time_frequency [(0 : ℚ), 1] "bogus units" "standard" = none := by
  have h : cfDecode ([(0 : ℚ), 1].take 10) "bogus units" "standard" = none := by
    have hsplit : splitUnits "bogus units" = none := by decide
    simp [cfDecode, hsplit]
  exact ⟨h, infer_time_frequency_decode_failure [(0 : ℚ), 1] "bogus units" "standard" h⟩

/-- Decoding two values under `"days since 2000-01-01"` yields offsets of
0 and 172800 seconds. -/
theorem cfDecode_days_eval :
    cfDecode [(0 : ℚ), 2] "days since 2000-01-01" "standard" = some [0, 172800] := by
  have hsplit : splitUnits "days since 2000-01-01"
      = some ("days".data, "2000-01-01".data) := by decide
  have hunit : unitSeconds (trimChars "days".data) = some 86400 := by decide
  have href : validRefString "2000-01-01".data = true := by decide
  have hcal : validCalendar "standard" = true := by decide
  simp [cfDecode, hsplit, hunit, href, hcal]
  norm_num

/-- Conversion of a common delta of `k` whole days, `k ≥ 1`: only `k = 1`
yields the one-day token; every larger multiple of 86400 seconds falls
into the hours branch, because the `% 3600` test is made first and every
multiple of 86400 is a multiple of 3600. -/
theorem freqFromSeconds_multiday (k : ℕ) (hk : 1 ≤ k) :
    freqFromSeconds ((k : ℚ) * 86400)
      = some (if k = 1 then "1D" else toString (24 * (k : Int)) ++ "H") := by
  have hcast : ((24 * k : ℕ) : Int) = 24 * (k : Int) := by push_cast; ring
  have h1 : ((k : ℚ) * 86400) / 3600 = ((24 * k : ℕ) : ℚ) := by push_cast; ring
  simp only [freqFromSeconds, h1, Rat.den_natCast, Rat.num_natCast, hcast]
  by_cases hk1 : k = 1
  · subst hk1; norm_num
  · have h2 : ¬ (24 * (k : Int)) = 1 := by omega
    have h3 : ¬ (24 * (k : Int)) = 3 := by omega
    have h6 : ¬ (24 * (k : Int)) = 6 := by omega
    have h12 : ¬ (24 * (k : Int)) = 12 := by omega
    have h24 : ¬ (24 * (k : Int)) = 24 := by omega
    simp only [if_neg h2, if_neg h3, if_neg h6, if_neg h12, if_neg h24, if_neg hk1,
      if_true, eq_self_iff_true]

/-- C2 counterexample: a regular series with a common delta of exactly
172800 seconds (two days, an exact multiple of 86400) is reported as the
hours token `"48H"`, not a days token — only the 24-hour delta is folded
to `"1D"`. -/
theorem infer_time_frequency_two_day_counterexample :
    infer_time_frequency [(0 : ℚ), 2] "days since 2000-01-01" "standard" = some "48H"
    ∧ "48H" ≠ "2D" := by
  constructor
  · rw [infer_time_frequency_eval [(0 : ℚ), 2] _ _ [0, 172800] (172800 - 0) []
      (by norm_num)
      (by rw [show List.take 10 [(0 : ℚ), 2] = [0, 2] from rfl]; exact cfDecode_days_eval)
      rfl]
    simp only [List.any_nil, Bool.false_eq_true, if_false]
    rw [show (172800 : ℚ) - 0 = ((2 : ℕ) : ℚ) * 86400 by norm_num,
      freqFromSeconds_multiday 2 (by norm_num)]
    decide
  · decide

/-- C2 amended: for every regular coordinate series whose common delta is
an exact multiple `k ≥ 1` of 86400 seconds, frequency inference reports
the hours-unit token `"{24k}H"` except for `k = 1`, where the delta of
exactly 24 hours is folded to the one-day token `"1D"` (e.g. a
172800-second delta yields `"48H"`, not `"2D"`). -/
theorem infer_time_frequency_multiday (vs : List ℚ) (u c : String) (ts : List ℚ) (k : ℕ)
    (hlen : 2 ≤ vs.length)
    (hdec : cfDecode (vs.take 10) u c = some ts)
    (hne : consecutiveDeltas ts ≠ [])
    (hreg : ∀ d ∈ consecutiveDeltas ts, d = (k : ℚ) * 86400)
    (hk : 1 ≤ k) :
    infer_time_frequency vs u c
      = some (if k = 1 then "1D" else toString (24 * (k : Int)) ++ "H") := by
  cases hds : consecutiveDeltas ts with
  | nil => exact absurd hds hne
  | cons d0 rest =>
    have hd0 : d0 = (k : ℚ) * 86400 := hreg d0 (hds ▸ List.mem_cons_self _ _)
    have hrest : ∀ d ∈ rest, d = (k : ℚ) * 86400 := fun d hd =>
      hreg d (hds ▸ List.mem_cons_of_mem _ hd)
    rw [infer_time_frequency_eval vs u c ts d0 rest (by omega) hdec hds]
    have hany : rest.any (fun delta => decide (1 < |delta - d0|)) = false := by
      rw [List.any_eq_false]
      intro d hd
      rw [hrest d hd, hd0]
      simp
    rw [hany]
    simp only [Bool.false_eq_true, if_false, hd0]
    exact freqFromSeconds_multiday k hk

/-- Witness for the amended C2 theorem: two values two days apart under
`"days since 2000-01-01"` yield the hours token for 48 hours. -/
theorem infer_time_frequency_multiday_witness :
    infer_time_frequency [(0 : ℚ), 2] "days since 2000-01-01" "standard"
      = some (if (2 : ℕ) = 1 then "1D" else toString (24 * ((2 : ℕ) : Int)) ++ "H") := by
  refine infer_time_frequency_multiday [(0 : ℚ), 2] _ _ [0, 172800] 2 (by norm_num) ?_ ?_ ?_
    (by norm_num)
  · rw [show List.take 10 [(0 : ℚ), 2] = [0, 2] from rfl]
    exact cfDecode_days_eval
  · rw [show consecutiveDeltas [(0 : ℚ), 172800] = [172800 - 0] from rfl]
    simp
  · rw [show consecutiveDeltas [(0 : ℚ), 172800] = [172800 - 0] from rfl]
    intro d hd
    rw [List.mem_singleton] at hd
    rw [hd]
    norm_num

/-- Decoding under `"seconds since 2000-01-01"` is the identity on the
offsets. -/
theorem cfDecode_seconds_eval (vs : List ℚ) :
    cfDecode vs "seconds since 2000-01-01" "standard" = some (vs.map (fun v => v * 1)) := by
  have hsplit : splitUnits "seconds since 2000-01-01"
      = some ("seconds".data, "2000-01-01".data) := by decide
  have hunit : unitSeconds (trimChars "seconds".data) = some 1 := by decide
  have href : validRefString "2000-01-01".data = true := by decide
  have hcal : validCalendar "standard" = true := by decide
  simp [cfDecode, hsplit, hunit, href, hcal]

/-- Conversion of a common delta of exactly 3600 seconds to the one-hour
token. -/
theorem freqFromSeconds_hour : freqFromSeconds 3600 = some "1H" := by
  have h1 : ((3600 : ℚ)) / 3600 = ((1 : ℕ) : ℚ) := by norm_num
  simp only [freqFromSeconds, h1, Rat.den_natCast, Rat.num_natCast]
  norm_num

/-- C5 counterexample: for the series `0, 3600, 7199, 10800` (seconds)
the consecutive deltas are `3600, 3599, 3601`; the adjacent pair
`(3599, 3601)` differs by 2 > 1 second, yet inference returns
`some "1H"` rather than `none` — the code compares every delta against
the *first* delta (`avg_delta = deltas[0]`), not against its neighbour,
and `3599` and `3601` are both within 1 second of `3600`. -/
theorem infer_time_frequency_irregular_counterexample :
    cfDecode [(0 : ℚ), 3600, 7199, 10800] "seconds since 2000-01-01" "standard"
        = some [0, 3600, 7199, 10800]
    ∧ consecutiveDeltas [(0 : ℚ), 3600, 7199, 10800] = [3600, 3599, 3601]
    ∧ (1 : ℚ) < |(3601 : ℚ) - 3599|
    ∧ infer_time_frequency [(0 : ℚ), 3600, 7199, 10800] "seconds since 2000-01-01"
        "standard" = some "1H" := by
  have hdec : cfDecode [(0 : ℚ), 3600, 7199, 10800] "seconds since 2000-01-01" "standard"
      = some [0, 3600, 7199, 10800] := by
    rw [cfDecode_seconds_eval]
    norm_num
  have hds : consecutiveDeltas [(0 : ℚ), 3600, 7199, 10800] = [3600, 3599, 3601] := by
    rw [show consecutiveDeltas [(0 : ℚ), 3600, 7199, 10800]
        = [3600 - 0, 7199 - 3600, 10800 - 7199] from rfl]
    norm_num
  refine ⟨hdec, hds, by norm_num, ?_⟩
  rw [infer_time_frequency_eval [(0 : ℚ), 3600, 7199, 10800] _ _
    [0, 3600, 7199, 10800] 3600 [3599, 3601] (by norm_num)
    (by rw [show List.take 10 [(0 : ℚ), 3600, 7199, 10800] = [0, 3600, 7199, 10800] from rfl]
        exact hdec)
    hds]
  have hany : List.any [(3599 : ℚ), 3601] (fun delta => decide (1 < |delta - 3600|))
      = false := by
    rw [List.any_eq_false]
    intro d hd
    rw [List.mem_cons, List.mem_singleton] at hd
    simp only [decide_eq_true_eq]
    rcases hd with h | h
    · rw [h, show (3599 : ℚ) - 3600 = -1 by norm_num, abs_neg, abs_one]
      norm_num
    · rw [h, show (3601 : ℚ) - 3600 = 1 by norm_num, abs_one]
      norm_num
  rw [hany]
  simp only [Bool.false_eq_true, if_false]
  exact freqFromSeconds_hour

/-- C5 amended: if any delta among the first up-to-10 decoded timestamps
differs from the *first* delta by more than 1 second, frequency inference
returns `none`; in particular a series spaced exactly 3600 seconds apart
with one step perturbed by 2 seconds yields `none`. -/
theorem infer_time_frequency_first_delta_tolerance (vs : List ℚ) (u c : String)
    (ts : List ℚ) (d0 d : ℚ)
    (hdec : cfDecode (vs.take 10) u c = some ts)
    (hhead : (consecutiveDeltas ts).head? = some d0)
    (hmem : d ∈ (consecutiveDeltas ts).tail)
    (hbad : 1 < |d - d0|) :
    infer_time_frequency vs u c = none := by
  by_cases hlen : vs.length < 2
  · unfold infer_time_frequency
    rw [if_pos hlen]
  · cases hds : consecutiveDeltas ts with
    | nil => rw [hds] at hhead; cases hhead
    | cons a rest =>
      rw [hds] at hhead hmem
      have ha : a = d0 := by simpa using hhead
      subst ha
      simp only [List.tail_cons] at hmem
      rw [infer_time_frequency_eval vs u c ts a rest hlen hdec hds]
      have hany : rest.any (fun delta => decide (1 < |delta - a|)) = true := by
        rw [List.any_eq_true]
        exact ⟨d, hmem, by simpa using hbad⟩
      rw [hany]
      simp

/-- Witness for the amended C5 theorem: hourly spacing with one step
perturbed by 2 seconds is rejected as irregular. -/
theorem infer_time_frequency_first_delta_tolerance_witness :
    infer_time_frequency [(0 : ℚ), 3600, 7202, 10802] "seconds since 2000-01-01"
        "standard" = none := by
  have hdec : cfDecode (List.take 10 [(0 : ℚ), 3600, 7202, 10802])
      "seconds since 2000-01-01" "standard" = some [0, 3600, 7202, 10802] := by
    rw [show List.take 10 [(0 : ℚ), 3600, 7202, 10802] = [0, 3600, 7202, 10802] from rfl,
      cfDecode_seconds_eval]
    norm_num
  have hds : consecutiveDeltas [(0 : ℚ), 3600, 7202, 10802] = [3600, 3602, 3600] := by
    rw [show consecutiveDeltas [(0 : ℚ), 3600, 7202, 10802]
        = [3600 - 0, 7202 - 3600, 10802 - 7202] from rfl]
    norm_num
  refine infer_time_frequency_first_delta_tolerance
    [(0 : ℚ), 3600, 7202, 10802] "seconds since 2000-01-01" "standard"
    [0, 3600, 7202, 10802] 3600 3602 hdec ?_ ?_ ?_
  · rw [hds]; rfl
  · rw [hds]
    simp
  · rw [show (3602 : ℚ) - 3600 = 2 by norm_num]
    rw [show |(2 : ℚ)| = 2 from abs_of_pos (by norm_num)]
    norm_num
/-! ### Metadata merging and validation (`mfdataset.py`)

Per-file metadata records (`_read_file_metadata`'s dictionaries) become a
`FileMeta` record; the `DummyDataset` container is embedded with just the
four fields the merge writes (`dims`, `coords`, `variables`, `attrs`),
its builder methods `add_dim`/`add_coord`/`add_variable`/`assign_attrs`
being dictionary writes.  Python `set` iteration order is unspecified
(hash-dependent); the model fixes it to the first record's insertion
order, which only affects which of several Rule-3 violations is
reported. -/

structure VarMeta where
  dims : List String
  attrs : List (String × String)
deriving DecidableEq, Repr

structure FileMeta where
  filepath : String
  dims : List (String × Nat)
  coords : List (String × VarMeta)
  vars : List (String × VarMeta)
  attrs : List (String × String)
deriving DecidableEq, Repr

structure DummyDataset where
  dims : List (String × Nat)
  coords : List (String × VarMeta)
  vars : List (String × VarMeta)
  attrs : List (String × String)
deriving DecidableEq, Repr

def emptyDataset : DummyDataset := ⟨[], [], [], []⟩

/-- Embedding of `DummyDataset.assign_attrs` for a single key. -/
def assign_attrs (ds : DummyDataset) (k v : String) : DummyDataset :=
  { ds with attrs := assocSet ds.attrs k v }

/-- Embedding of `DummyDataset.add_dim` (`self.dims[name] = size`). -/
def add_dim (ds : DummyDataset) (name : String) (size : Nat) : DummyDataset :=
  { ds with dims := assocSet ds.dims name size }

/-- Embedding of `DummyDataset.add_coord` (structural part only). -/
def add_coord (ds : DummyDataset) (name : String) (info : VarMeta) : DummyDataset :=
  { ds with coords := assocSet ds.coords name info }

/-- Embedding of `DummyDataset.add_variable` (structural part only). -/
def add_variable (ds : DummyDataset) (name : String) (info : VarMeta) : DummyDataset :=
  { ds with vars := assocSet ds.vars name info }

/-- The record's size for the concat dimension, `m["dims"][concat_dim]`;
the `getD 0` default stands for Python's `KeyError`, which compatibility
validation rules out before the merge runs. -/
def concatSizeOf (m : FileMeta) (concat : String) : Nat :=
  (alookup m.dims concat).getD 0

/-- Embedding of `mfdataset._combine_file_metadata`: global attributes,
coordinates and variables come from the first record; the dimension loop
walks the first record's dims, summing the concat dimension over all
records and copying every other size.  (On `[]` Python would raise
`IndexError`; `open_mfdataset` rejects empty inputs earlier.) -/
def _combine_file_metadata (ms : List FileMeta) (concat : String) : DummyDataset :=
  match ms with
  | [] => emptyDataset
  | first :: _ =>
    let total := (ms.map (fun m => concatSizeOf m concat)).sum
    let ds := first.attrs.foldl (fun ds kv => assign_attrs ds kv.1 kv.2) emptyDataset
    let ds := first.dims.foldl
      (fun ds p => add_dim ds p.1 (if p.1 = concat then total else p.2)) ds
    let ds := first.coords.foldl (fun ds p => add_coord ds p.1 p.2) ds
    first.vars.foldl (fun ds p => add_variable ds p.1 p.2) ds

theorem foldl_assign_attrs_dims (l : List (String × String)) (ds : DummyDataset) :
    (l.foldl (fun ds kv => assign_attrs ds kv.1 kv.2) ds).dims = ds.dims := by
  induction l generalizing ds with
  | nil => rfl
  | cons hd tl ih => rw [List.foldl_cons, ih]; rfl

theorem foldl_add_coord_dims (l : List (String × VarMeta)) (ds : DummyDataset) :
    (l.foldl (fun ds p => add_coord ds p.1 p.2) ds).dims = ds.dims := by
  induction l generalizing ds with
  | nil => rfl
  | cons hd tl ih => rw [List.foldl_cons, ih]; rfl

theorem foldl_add_variable_dims (l : List (String × VarMeta)) (ds : DummyDataset) :
    (l.foldl (fun ds p => add_variable ds p.1 p.2) ds).dims = ds.dims := by
  induction l generalizing ds with
  | nil => rfl
  | cons hd tl ih => rw [List.foldl_cons, ih]; rfl

theorem foldl_add_dim_alookup (concat : String) (total : Nat) :
    ∀ (l : List (String × Nat)) (ds : DummyDataset) (n : String),
      (l.map Prod.fst).Nodup →
      alookup ((l.foldl
          (fun ds p => add_dim ds p.1 (if p.1 = concat then total else p.2)) ds).dims) n
        = (match alookup l n with
           | some v => some (if n = concat then total else v)
           | none => alookup ds.dims n) := by
  intro l
  induction l with
  | nil => intro ds n _; rfl
  | cons hd tl ih =>
    intro ds n hnd
    obtain ⟨k0, v0⟩ := hd
    simp only [List.map_cons, List.nodup_cons] at hnd
    rw [List.foldl_cons, ih _ _ hnd.2]
    by_cases hk : n = k0
    · subst hk
      rw [alookup_eq_none_of_not_mem tl n hnd.1]
      show alookup (assocSet ds.dims n (if n = concat then total else v0)) n
          = (match (if n = n then some v0 else alookup tl n) with
             | some v => some (if n = concat then total else v)
             | none => alookup ds.dims n)
      rw [if_pos rfl, alookup_assocSet_self]
    · show (match alookup tl n with
           | some v => some (if n = concat then total else v)
           | none => alookup (add_dim ds k0 (if k0 = concat then total else v0)).dims n)
          = (match (if n = k0 then some v0 else alookup tl n) with
             | some v => some (if n = concat then total else v)
             | none => alookup ds.dims n)
      rw [if_neg hk]
      cases alookup tl n with
      | none =>
        show alookup (assocSet ds.dims k0 _) n = alookup ds.dims n
        exact alookup_assocSet_ne _ _ _ _ hk
      | some v => rfl

/-- C1: for every nonempty list of compatible per-file records (Rule 1
holds: each record has the concat dimension; the first record's dim names
are dictionary keys, hence distinct), the merged description's
concat-dimension size is the sum of each record's size for that
dimension, and every other dimension takes the first record's size. -/
theorem combine_file_metadata_dims (ms : List FileMeta) (concat : String)
    (m0 : FileMeta) (hhead : ms.head? = some m0)
    (hnd : (m0.dims.map Prod.fst).Nodup)
    (hall : ∀ m ∈ ms, (alookup m.dims concat).isSome) :
    alookup (_combine_file_metadata ms concat).dims concat
        = some ((ms.map (fun m => concatSizeOf m concat)).sum)
    ∧ ∀ n, n ≠ concat →
        alookup (_combine_file_metadata ms concat).dims n = alookup m0.dims n := by
  cases ms with
  | nil => cases hhead
  | cons first rest =>
    have hm0 : first = m0 := by simpa using hhead
    subst hm0
    simp only [_combine_file_metadata]
    rw [foldl_add_variable_dims, foldl_add_coord_dims]
    constructor
    · rw [foldl_add_dim_alookup _ _ _ _ concat hnd]
      obtain ⟨v, hv⟩ := Option.isSome_iff_exists.mp
        (hall first (List.mem_cons_self _ _))
      rw [hv]
      simp
    · intro n hn
      rw [foldl_add_dim_alookup _ _ _ _ n hnd]
      cases hl : alookup first.dims n with
      | none => simp [foldl_assign_attrs_dims, emptyDataset, alookup]
      | some v => simp [hn]

/-- A synthetic per-file record with `time` size `k` and `lat` size 4. -/
def sampleMeta (p : String) (k : Nat) : FileMeta :=
  { filepath := p, dims := [("time", k), ("lat", 4)], coords := [],
    vars := [("tas", ⟨["time", "lat"], []⟩)], attrs := [] }

/-- Witness for C1: merging records contributing 2, 3 and 5 steps gives a
`time` size of 10 and keeps `lat` at the first record's 4. -/
theorem combine_file_metadata_dims_witness :
    alookup (_combine_file_metadata
        [sampleMeta "f0" 2, sampleMeta "f1" 3, sampleMeta "f2" 5] "time").dims "time"
      = some 10
    ∧ alookup (_combine_file_metadata
        [sampleMeta "f0" 2, sampleMeta "f1" 3, sampleMeta "f2" 5] "time").dims "lat"
      = some 4 := by
  have h := combine_file_metadata_dims
    [sampleMeta "f0" 2, sampleMeta "f1" 3, sampleMeta "f2" 5] "time"
    (sampleMeta "f0" 2) rfl (by decide) (by decide)
  refine ⟨?_, ?_⟩
  · rw [h.1]; decide
  · rw [h.2 "lat" (by decide)]; decide

/-- Structured embedding of the `ValueError`s raised by
`_validate_file_compatibility` (the model keeps the data the messages
carry rather than the formatted strings). -/
inductive ValidationError where
  | missingDim (source : String)
  | varMismatch (sourceIndex : Nat) (missing extra : List String)
  | dimMismatch (varName : String) (sourceIndex : Nat) (expected actual : List String)
deriving DecidableEq, Repr

/-- Set equality of two variable-name collections, as Python's
`set(a) != set(b)` test (negated). -/
def varSetEq (a b : List String) : Bool :=
  a.all (fun v => b.contains v) && b.all (fun v => a.contains v)

/-- Rule 1 loop: the first record (over all records, index 0 included)
whose dims lack the concat dimension. -/
def findRule1 (concat : String) : List FileMeta → Option ValidationError
  | [] => none
  | m :: rest =>
    if (m.dims.map Prod.fst).contains concat then findRule1 concat rest
    else some (ValidationError.missingDim m.filepath)

/-- Rule 2 loop over the records after the first, carrying their index. -/
def findRule2 (firstVarNames : List String) : Nat → List FileMeta → Option ValidationError
  | _, [] => none
  | i, m :: rest =>
    let vnames := m.vars.map Prod.fst
    if varSetEq vnames firstVarNames then findRule2 firstVarNames (i + 1) rest
    else some (ValidationError.varMismatch i
      (firstVarNames.filter (fun v => !(vnames.contains v)))
      (vnames.filter (fun v => !(firstVarNames.contains v))))

/-- The dims tuple `metadata["variables"][var_name]["dims"]` read by the
Rule 3 loop; the `getD` default stands for the `KeyError` that a passed
Rule 2 has already ruled out. -/
def ruleThreeDims (m : FileMeta) (vn : String) : List String :=
  ((alookup m.vars vn).getD ⟨[], []⟩).dims

/-- Rule 3 inner loop for one variable name. -/
def findRule3Var (vn : String) (firstDims : List String) :
    Nat → List FileMeta → Option ValidationError
  | _, [] => none
  | i, m :: rest =>
    let dims := ruleThreeDims m vn
    if dims = firstDims then findRule3Var vn firstDims (i + 1) rest
    else some (ValidationError.dimMismatch vn i firstDims dims)

/-- Embedding of `mfdataset._validate_file_compatibility`: Rule 1 is
checked across all records first, then Rule 2 across records 1.., then
Rule 3 per variable of the first record, each loop reporting its first
(lowest-index) violation. -/
def _validate_file_compatibility (ms : List FileMeta) (concat : String) :
    Option ValidationError :=
  match ms with
  | [] => none
  | first :: rest =>
    match findRule1 concat ms with
    | some e => some e
    | none =>
      match findRule2 (first.vars.map Prod.fst) 1 rest with
      | some e => some e
      | none =>
        (first.vars.map Prod.fst).findSome? fun vn =>
          findRule3Var vn (ruleThreeDims first vn) 1 rest

theorem findRule1_spec (concat : String) :
    ∀ (l : List FileMeta) (i : Nat) (hi : i < l.length),
      ((l.get ⟨i, hi⟩).dims.map Prod.fst).contains concat = false →
      (∀ (j : Nat) (hj : j < l.length), j < i →
        ((l.get ⟨j, hj⟩).dims.map Prod.fst).contains concat = true) →
      findRule1 concat l = some (ValidationError.missingDim (l.get ⟨i, hi⟩).filepath) := by
  intro l
  induction l with
  | nil => intro i hi; exact absurd hi (by simp)
  | cons m rest ih =>
    intro i hi hviol hmin
    cases i with
    | zero =>
      have hv : (m.dims.map Prod.fst).contains concat = false := hviol
      simp only [findRule1, hv, Bool.false_eq_true, if_false]
      rfl
    | succ i' =>
      have hm : (m.dims.map Prod.fst).contains concat = true :=
        hmin 0 (by simp) (Nat.succ_pos _)
      simp only [findRule1, hm, if_true]
      have hi' : i' < rest.length := by simpa using hi
      have hviol' : ((rest.get ⟨i', hi'⟩).dims.map Prod.fst).contains concat = false := by
        simpa using hviol
      have hmin' : ∀ (j : Nat) (hj : j < rest.length), j < i' →
          ((rest.get ⟨j, hj⟩).dims.map Prod.fst).contains concat = true := by
        intro j hj hji
        have := hmin (j + 1) (by simpa using hj) (by omega)
        simpa using this
      rw [ih i' hi' hviol' hmin']
      simp

theorem findRule1_none (concat : String) :
    ∀ (l : List FileMeta),
      (∀ (j : Nat) (hj : j < l.length),
        ((l.get ⟨j, hj⟩).dims.map Prod.fst).contains concat = true) →
      findRule1 concat l = none := by
  intro l
  induction l with
  | nil => intro; rfl
  | cons m rest ih =>
    intro h
    have hm : (m.dims.map Prod.fst).contains concat = true := h 0 (by simp)
    simp only [findRule1, hm, if_true]
    refine ih ?_
    intro j hj
    have := h (j + 1) (by simpa using hj)
    simpa using this

theorem findRule2_spec (fv : List String) :
    ∀ (l : List FileMeta) (n i : Nat) (hi : i < l.length),
      varSetEq ((l.get ⟨i, hi⟩).vars.map Prod.fst) fv = false →
      (∀ (j : Nat) (hj : j < l.length), j < i →
        varSetEq ((l.get ⟨j, hj⟩).vars.map Prod.fst) fv = true) →
      findRule2 fv n l
        = some (ValidationError.varMismatch (n + i)
            (fv.filter
              (fun v => !(((l.get ⟨i, hi⟩).vars.map Prod.fst).contains v)))
            (((l.get ⟨i, hi⟩).vars.map Prod.fst).filter
              (fun v => !(fv.contains v)))) := by
  intro l
  induction l with
  | nil => intro n i hi; exact absurd hi (by simp)
  | cons m rest ih =>
    intro n i hi hviol hmin
    cases i with
    | zero =>
      have hv : varSetEq (m.vars.map Prod.fst) fv = false := hviol
      simp [findRule2, hv]
    | succ i' =>
      have hm : varSetEq (m.vars.map Prod.fst) fv = true :=
        hmin 0 (by simp) (Nat.succ_pos _)
      simp only [findRule2, hm, if_true]
      have hi' : i' < rest.length := by simpa using hi
      have hviol' : varSetEq ((rest.get ⟨i', hi'⟩).vars.map Prod.fst) fv = false := by
        simpa using hviol
      have hmin' : ∀ (j : Nat) (hj : j < rest.length), j < i' →
          varSetEq ((rest.get ⟨j, hj⟩).vars.map Prod.fst) fv = true := by
        intro j hj hji
        have := hmin (j + 1) (by simpa using hj) (by omega)
        simpa using this
      rw [ih (n + 1) i' hi' hviol' hmin']
      have : n + 1 + i' = n + (i' + 1) := by omega
      rw [this]
      simp

theorem findRule2_none (fv : List String) :
    ∀ (l : List FileMeta) (n : Nat),
      (∀ (j : Nat) (hj : j < l.length),
        varSetEq ((l.get ⟨j, hj⟩).vars.map Prod.fst) fv = true) →
      findRule2 fv n l = none := by
  intro l
  induction l with
  | nil => intro n _; rfl
  | cons m rest ih =>
    intro n h
    have hm : varSetEq (m.vars.map Prod.fst) fv = true := h 0 (by simp)
    simp only [findRule2, hm, if_true]
    refine ih (n + 1) ?_
    intro j hj
    have := h (j + 1) (by simpa using hj)
    simpa using this

theorem findRule3Var_spec (vn : String) (fd : List String) :
    ∀ (l : List FileMeta) (n i : Nat) (hi : i < l.length),
      ruleThreeDims (l.get ⟨i, hi⟩) vn ≠ fd →
      (∀ (j : Nat) (hj : j < l.length), j < i →
        ruleThreeDims (l.get ⟨j, hj⟩) vn = fd) →
      findRule3Var vn fd n l
        = some (ValidationError.dimMismatch vn (n + i) fd
            (ruleThreeDims (l.get ⟨i, hi⟩) vn)) := by
  intro l
  induction l with
  | nil => intro n i hi; exact absurd hi (by simp)
  | cons m rest ih =>
    intro n i hi hviol hmin
    cases i with
    | zero =>
      have hv : ruleThreeDims m vn ≠ fd := hviol
      simp [findRule3Var, hv]
    | succ i' =>
      have hm : ruleThreeDims m vn = fd := hmin 0 (by simp) (Nat.succ_pos _)
      simp only [findRule3Var, hm, if_true]
      have hi' : i' < rest.length := by simpa using hi
      have hviol' : ruleThreeDims (rest.get ⟨i', hi'⟩) vn ≠ fd := by
        simpa using hviol
      have hmin' : ∀ (j : Nat) (hj : j < rest.length), j < i' →
          ruleThreeDims (rest.get ⟨j, hj⟩) vn = fd := by
        intro j hj hji
        have := hmin (j + 1) (by simpa using hj) (by omega)
        simpa using this
      rw [ih (n + 1) i' hi' hviol' hmin']
      have : n + 1 + i' = n + (i' + 1) := by omega
      rw [this]
      simp

theorem findRule3Var_none (vn : String) (fd : List String) :
    ∀ (l : List FileMeta) (n : Nat),
      (∀ (j : Nat) (hj : j < l.length), ruleThreeDims (l.get ⟨j, hj⟩) vn = fd) →
      findRule3Var vn fd n l = none := by
  intro l
  induction l with
  | nil => intro n _; rfl
  | cons m rest ih =>
    intro n h
    have hm : ruleThreeDims m vn = fd := h 0 (by simp)
    simp only [findRule3Var, hm, if_true]
    refine ih (n + 1) ?_
    intro j hj
    have := h (j + 1) (by simpa using hj)
    simpa using this

theorem findSome?_first {α β : Type} (f : α → Option β) :
    ∀ (l : List α) (v : Nat) (hv : v < l.length) (b : β),
      f (l.get ⟨v, hv⟩) = some b →
      (∀ (w : Nat) (hw : w < l.length), w < v → f (l.get ⟨w, hw⟩) = none) →
      l.findSome? f = some b := by
  intro l
  induction l with
  | nil => intro v hv; exact absurd hv (by simp)
  | cons a tl ih =>
    intro v hv b hsome hnone
    cases v with
    | zero =>
      have ha : f a = some b := hsome
      rw [List.findSome?_cons, ha]
    | succ v' =>
      have ha : f a = none := hnone 0 (by simp) (Nat.succ_pos _)
      rw [List.findSome?_cons, ha]
      show tl.findSome? f = some b
      refine ih v' (by simpa using hv) b (by simpa using hsome) ?_
      intro w hw hwv
      have := hnone (w + 1) (by simpa using hw) (by omega)
      simpa using this

/-- C7 amended: the reported violation is deterministic in the model
(given the input order and the fixed variable-enumeration order), but the
rule class takes priority over the source index — Rule 1 is checked over
all records first, then Rule 2, then Rule 3 — and only within a rule
class is the lowest source index reported.  Part one: any Rule 1
violation wins, at the lowest violating index.  Part two: with Rule 1
clean everywhere, the lowest-index Rule 2 violation is reported with its
missing/extra name sets.  Part three: with Rules 1 and 2 clean
everywhere, the first Rule 3 violation in the order (first record's
variable enumeration, then lowest source index) is reported with the
expected and actual dims tuples. -/
theorem validate_rule_priority (ms : List FileMeta) (concat : String) :
    (∀ (i : Nat) (hi : i < ms.length),
      ((ms.get ⟨i, hi⟩).dims.map Prod.fst).contains concat = false →
      (∀ (j : Nat) (hj : j < ms.length), j < i →
        ((ms.get ⟨j, hj⟩).dims.map Prod.fst).contains concat = true) →
      _validate_file_compatibility ms concat
        = some (ValidationError.missingDim (ms.get ⟨i, hi⟩).filepath))
    ∧ (∀ first rest, ms = first :: rest →
      (∀ (j : Nat) (hj : j < ms.length),
        ((ms.get ⟨j, hj⟩).dims.map Prod.fst).contains concat = true) →
      ∀ (i : Nat) (hi : i < rest.length),
        varSetEq ((rest.get ⟨i, hi⟩).vars.map Prod.fst)
          (first.vars.map Prod.fst) = false →
        (∀ (j : Nat) (hj : j < rest.length), j < i →
          varSetEq ((rest.get ⟨j, hj⟩).vars.map Prod.fst)
            (first.vars.map Prod.fst) = true) →
        _validate_file_compatibility ms concat
          = some (ValidationError.varMismatch (1 + i)
              ((first.vars.map Prod.fst).filter
                (fun v => !(((rest.get ⟨i, hi⟩).vars.map Prod.fst).contains v)))
              (((rest.get ⟨i, hi⟩).vars.map Prod.fst).filter
                (fun v => !((first.vars.map Prod.fst).contains v)))))
    ∧ (∀ first rest, ms = first :: rest →
      (∀ (j : Nat) (hj : j < ms.length),
        ((ms.get ⟨j, hj⟩).dims.map Prod.fst).contains concat = true) →
      (∀ (j : Nat) (hj : j < rest.length),
        varSetEq ((rest.get ⟨j, hj⟩).vars.map Prod.fst)
          (first.vars.map Prod.fst) = true) →
      ∀ (v : Nat) (hv : v < (first.vars.map Prod.fst).length)
        (i : Nat) (hi : i < rest.length),
        ruleThreeDims (rest.get ⟨i, hi⟩) ((first.vars.map Prod.fst).get ⟨v, hv⟩)
            ≠ ruleThreeDims first ((first.vars.map Prod.fst).get ⟨v, hv⟩) →
        (∀ (j : Nat) (hj : j < rest.length), j < i →
          ruleThreeDims (rest.get ⟨j, hj⟩) ((first.vars.map Prod.fst).get ⟨v, hv⟩)
              = ruleThreeDims first ((first.vars.map Prod.fst).get ⟨v, hv⟩)) →
        (∀ (w : Nat) (hw : w < (first.vars.map Prod.fst).length), w < v →
          ∀ (j : Nat) (hj : j < rest.length),
            ruleThreeDims (rest.get ⟨j, hj⟩) ((first.vars.map Prod.fst).get ⟨w, hw⟩)
                = ruleThreeDims first ((first.vars.map Prod.fst).get ⟨w, hw⟩)) →
        _validate_file_compatibility ms concat
          = some (ValidationError.dimMismatch
              ((first.vars.map Prod.fst).get ⟨v, hv⟩) (1 + i)
              (ruleThreeDims first ((first.vars.map Prod.fst).get ⟨v, hv⟩))
              (ruleThreeDims (rest.get ⟨i, hi⟩)
                ((first.vars.map Prod.fst).get ⟨v, hv⟩)))) := by
  refine ⟨?_, ?_, ?_⟩
  · intro i hi hviol hmin
    cases ms with
    | nil => exact absurd hi (by simp)
    | cons first rest =>
      simp only [_validate_file_compatibility]
      rw [findRule1_spec concat (first :: rest) i hi hviol hmin]
  · intro first rest hms hall i hi hviol hmin
    subst hms
    simp only [_validate_file_compatibility]
    rw [findRule1_none concat (first :: rest) hall,
      findRule2_spec (first.vars.map Prod.fst) rest 1 i hi hviol hmin]
  · intro first rest hms hall hvarsok v hv i hi hviol hmin hclean
    subst hms
    simp only [_validate_file_compatibility]
    rw [findRule1_none concat (first :: rest) hall,
      findRule2_none (first.vars.map Prod.fst) rest 1 hvarsok,
      findSome?_first (fun vn => findRule3Var vn (ruleThreeDims first vn) 1 rest)
        (first.vars.map Prod.fst) v hv _
        (findRule3Var_spec ((first.vars.map Prod.fst).get ⟨v, hv⟩)
          (ruleThreeDims first ((first.vars.map Prod.fst).get ⟨v, hv⟩))
          rest 1 i hi hviol hmin)
        (fun w hw hwv =>
          findRule3Var_none ((first.vars.map Prod.fst).get ⟨w, hw⟩)
            (ruleThreeDims first ((first.vars.map Prod.fst).get ⟨w, hw⟩))
            rest 1 (hclean w hw hwv))]

/-- First record: variables `{A}`, both dims present. -/
def recA : FileMeta :=
  { filepath := "f0", dims := [("time", 2), ("lat", 3)], coords := [],
    vars := [("A", ⟨["time"], []⟩)], attrs := [] }

/-- Second record: extra variable `B` — a Rule 2 violation at index 1. -/
def recAB : FileMeta :=
  { filepath := "f1", dims := [("time", 4), ("lat", 3)], coords := [],
    vars := [("A", ⟨["time"], []⟩), ("B", ⟨["time"], []⟩)], attrs := [] }

/-- Third record: no `time` dimension — a Rule 1 violation at index 2. -/
def recNoTime : FileMeta :=
  { filepath := "f2", dims := [("lat", 3)], coords := [],
    vars := [("A", ⟨["time"], []⟩)], attrs := [] }

/-- A record agreeing with `recA` except that variable `A` has dims
`["lat"]` — a Rule 3 violation only. -/
def recBadDims : FileMeta :=
  { filepath := "f3", dims := [("time", 4), ("lat", 3)], coords := [],
    vars := [("A", ⟨["lat"], []⟩)], attrs := [] }

/-- C7 counterexample: with a Rule 2 violation at source index 1 and a
Rule 1 violation at source index 2, validation reports the Rule 1 error
for source `f2` (index 2) — not the lower-index violation — so the rule
class, not the lowest source index, is the primary tie-break. -/
theorem validate_tiebreak_counterexample :
    _validate_file_compatibility [recA, recAB, recNoTime] "time"
        = some (ValidationError.missingDim "f2")
    ∧ varSetEq (recAB.vars.map Prod.fst) (recA.vars.map Prod.fst) = false := by
  exact ⟨by decide, by decide⟩

/-- Witness for the amended C7 theorem: part one at the three records
with the Rule 1 violation at index 2 winning, and part three at a Rule-3-
only pair reporting the dims mismatch of variable `A` at index 1. -/
theorem validate_rule_priority_witness :
    _validate_file_compatibility [recA, recAB, recNoTime] "time"
      = some (ValidationError.missingDim
          (([recA, recAB, recNoTime].get ⟨2, by norm_num⟩).filepath))
    ∧ _validate_file_compatibility [recA, recBadDims] "time"
      = some (ValidationError.dimMismatch "A" 1 ["time"] ["lat"]) := by
  constructor
  · refine (validate_rule_priority [recA, recAB, recNoTime] "time").1 2 (by norm_num)
      (by decide) ?_
    intro j hj hji
    simp only [List.length_cons, List.length_nil] at hj
    interval_cases j
    · show (recA.dims.map Prod.fst).contains "time" = true
      decide
    · show (recAB.dims.map Prod.fst).contains "time" = true
      decide
  · have h3 := (validate_rule_priority [recA, recBadDims] "time").2.2
      recA [recBadDims] rfl ?_ ?_ 0 (by decide) 0 (by decide) ?_ ?_ ?_
    · rw [h3]
      decide
    · intro j hj
      simp only [List.length_cons, List.length_nil] at hj
      interval_cases j
      · show (recA.dims.map Prod.fst).contains "time" = true
        decide
      · show (recBadDims.dims.map Prod.fst).contains "time" = true
        decide
    · intro j hj
      simp only [List.length_cons, List.length_nil] at hj
      interval_cases j
      show varSetEq (recBadDims.vars.map Prod.fst) (recA.vars.map Prod.fst) = true
      decide
    · show ruleThreeDims recBadDims "A" ≠ ruleThreeDims recA "A"
      decide
    · intro j hj hji
      exact absurd hji (Nat.not_lt_zero j)
    · intro w hw hwv
      exact absurd hwv (Nat.not_lt_zero w)
/-! ### Period planning (`time_utils.create_time_periods`)

Calendar datetimes are embedded as explicit field records (cftime's
microsecond field is dropped: the planner copies only year..second).
Comparison of same-calendar datetimes — Python's `current < end` and
`period_end > end` — is by time value, embedded as `secsOf`, an absolute
second count obtained from a per-calendar day number (civil-from-days
arithmetic for the Gregorian family; simple closed forms for the julian,
fixed-365/366-day and 360-day calendars; the "standard" calendar's
pre-1582 Julian segment is modelled as proleptic Gregorian).
`cftime.datetime(...)` construction validates the calendar name and the
field ranges and raises `ValueError` on, e.g., day 29 of a non-leap
February — embedded as `Option`.  The `while current < end` loop is
embedded with a fuel argument: `none` means the fuel ran out (the Python
loop would still be running, e.g. for a zero or negative multiplier),
`some (Except.error ())` models a raised `ValueError`, and
`some (Except.ok ps)` a normal return. -/

/-- Parses an optionally signed decimal integer, as Python `int(s)`. -/
def parseIntChars : List Char → Option Int
  | '-' :: rest => (parseNatChars rest).map (fun n => -(n : Int))
  | '+' :: rest => (parseNatChars rest).map (fun n => (n : Int))
  | s => (parseNatChars s).map (fun n => (n : Int))

/-- Python `s.endswith(c)` for a single-character suffix. -/
def endsWithChar (s : String) (c : Char) : Bool :=
  decide (s.data.getLast? = some c)

/-- Python `s[:-1]`. -/
def dropLastChar (s : String) : List Char :=
  s.data.dropLast

structure CFDatetime where
  year : Int
  month : Nat
  day : Nat
  hour : Nat
  minute : Nat
  second : Nat
deriving DecidableEq, Repr

/-- Leap-year rule per calendar family. -/
def isLeapYearCal (cal : String) (y : Int) : Bool :=
  if cal = "julian" then y % 4 == 0
  else if cal = "noleap" || cal = "365_day" || cal = "360_day" then false
  else if cal = "all_leap" || cal = "366_day" then true
  else (y % 4 == 0 && !(y % 100 == 0)) || y % 400 == 0

def monthLengths (leap : Bool) : List Nat :=
  if leap then [31, 29, 31, 30, 31, 30, 31, 31, 30, 31, 30, 31]
  else [31, 28, 31, 30, 31, 30, 31, 31, 30, 31, 30, 31]

def daysInMonthCal (cal : String) (y : Int) (m : Nat) : Nat :=
  if cal = "360_day" then 30
  else (monthLengths (isLeapYearCal cal y)).getD (m - 1) 0

/-- Model of the `cftime.datetime` constructor: validates the calendar
name and the field ranges; `none` models the raised `ValueError`. -/
def mkCFDatetime (cal : String) (y : Int) (m d h mi s : Nat) : Option CFDatetime :=
  if validCalendar cal && decide (1 ≤ m) && decide (m ≤ 12) && decide (1 ≤ d)
      && decide (d ≤ daysInMonthCal cal y m) && decide (h < 24) && decide (mi < 60)
      && decide (s < 60) then
    some ⟨y, m, d, h, mi, s⟩
  else none

/-- Day-of-year offset in the March-based year, used by the civil-day
conversions. -/
def marchDoy (m d : Nat) : Nat :=
  (153 * ((m + 9) % 12) + 2) / 5 + (d - 1)

/-- Days since 1970-01-01 in the proleptic Gregorian calendar
(civil-from-days arithmetic). -/
def gregDayNumber (y : Int) (m d : Nat) : Int :=
  let yy : Int := if m ≤ 2 then y - 1 else y
  let era : Int := yy.fdiv 400
  let yoe : Int := yy - era * 400
  let doe : Int := yoe * 365 + yoe.fdiv 4 - yoe.fdiv 100 + (marchDoy m d : Int)
  era * 146097 + doe - 719468

/-- Day number in the Julian calendar (365.25-day era arithmetic). -/
def julianDayNumber (y : Int) (m d : Nat) : Int :=
  let yy : Int := if m ≤ 2 then y - 1 else y
  yy * 365 + yy.fdiv 4 + (marchDoy m d : Int)

def cumDaysBeforeMonth (leap : Bool) (m : Nat) : Nat :=
  ((monthLengths leap).take (m - 1)).sum

/-- Day number in a fixed-length-year calendar (noleap / all_leap). -/
def fixedYearDayNumber (yearLen : Nat) (leap : Bool) (y : Int) (m d : Nat) : Int :=
  y * (yearLen : Int) + ((cumDaysBeforeMonth leap m + (d - 1) : Nat) : Int)

def dayNumberCal (cal : String) (y : Int) (m d : Nat) : Int :=
  if cal = "julian" then julianDayNumber y m d
  else if cal = "noleap" || cal = "365_day" then fixedYearDayNumber 365 false y m d
  else if cal = "all_leap" || cal = "366_day" then fixedYearDayNumber 366 true y m d
  else if cal = "360_day" then y * 360 + (((m - 1) * 30 + (d - 1) : Nat) : Int)
  else gregDayNumber y m d

/-- Absolute time value of a datetime in seconds; cftime datetimes of one
calendar compare by this value. -/
def secsOf (cal : String) (t : CFDatetime) : Int :=
  86400 * dayNumberCal cal t.year t.month t.day
    + 3600 * (t.hour : Int) + 60 * (t.minute : Int) + (t.second : Int)

/-- Inverse of `gregDayNumber`. -/
def gregCivilFromDays (z0 : Int) : Int × Nat × Nat :=
  let z := z0 + 719468
  let era := z.fdiv 146097
  let doe : Nat := (z - era * 146097).toNat
  let yoe : Nat := (doe - doe / 1460 + doe / 36524 - doe / 146096) / 365
  let doy : Nat := doe - (365 * yoe + yoe / 4 - yoe / 100)
  let mp : Nat := (5 * doy + 2) / 153
  let d : Nat := doy - (153 * mp + 2) / 5 + 1
  let m : Nat := if mp < 10 then mp + 3 else mp - 9
  (era * 400 + (yoe : Int) + (if m ≤ 2 then 1 else 0), m, d)

/-- Inverse of `julianDayNumber`. -/
def julianCivilFromDays (z : Int) : Int × Nat × Nat :=
  let era := z.fdiv 1461
  let doe : Nat := (z - era * 1461).toNat
  let yoe : Nat := (doe - doe / 1460) / 365
  let doy : Nat := doe - 365 * yoe
  let mp : Nat := (5 * doy + 2) / 153
  let d : Nat := doy - (153 * mp + 2) / 5 + 1
  let m : Nat := if mp < 10 then mp + 3 else mp - 9
  (era * 4 + (yoe : Int) + (if m ≤ 2 then 1 else 0), m, d)

/-- Month and day from a 0-based day-of-year, walking the month table. -/
def monthFromDoyAux : List Nat → Nat → Nat → Nat × Nat
  | [], m, doy => (m, doy + 1)
  | len :: restLens, m, doy =>
    if doy < len then (m, doy + 1) else monthFromDoyAux restLens (m + 1) (doy - len)

/-- Inverse of `fixedYearDayNumber`. -/
def fixedYearCivilFromDays (yearLen : Nat) (leap : Bool) (z : Int) : Int × Nat × Nat :=
  let y := z.fdiv (yearLen : Int)
  let doy : Nat := (z - y * (yearLen : Int)).toNat
  let md := monthFromDoyAux (monthLengths leap) 1 doy
  (y, md.1, md.2)

def civilFromDaysCal (cal : String) (z : Int) : Int × Nat × Nat :=
  if cal = "julian" then julianCivilFromDays z
  else if cal = "noleap" || cal = "365_day" then fixedYearCivilFromDays 365 false z
  else if cal = "all_leap" || cal = "366_day" then fixedYearCivilFromDays 366 true z
  else if cal = "360_day" then
    let y := z.fdiv 360
    let rem : Nat := (z - y * 360).toNat
    (y, rem / 30 + 1, rem % 30 + 1)
  else gregCivilFromDays z

/-- Model of `datetime + timedelta(seconds=s)`: convert to absolute
seconds, shift, convert back. -/
def addSecondsCal (cal : String) (t : CFDatetime) (s : Int) : CFDatetime :=
  let total := secsOf cal t + s
  let dayz := total.fdiv 86400
  let rem : Nat := (total - dayz * 86400).toNat
  let ymd := civilFromDaysCal cal dayz
  ⟨ymd.1, ymd.2.1, ymd.2.2, rem / 3600, (rem % 3600) / 60, rem % 60⟩

/-- Embedding of the loop body of `create_time_periods` that computes
`period_end` from `current`: suffix dispatch on Y/M/D/H with an integer
multiplier, calendar-aware field arithmetic for Y/M (with constructor
validation), fixed-duration `timedelta` addition for D/H, and
`Except.error` for the `ValueError`s (unsupported suffix, unparsable
multiplier, invalid constructed date). -/
def stepPeriodEnd (cal : String) (current : CFDatetime) (group_freq : String) :
    Except Unit CFDatetime :=
  if endsWithChar group_freq 'Y' then
    match parseIntChars (dropLastChar group_freq) with
    | some years =>
      match mkCFDatetime cal (current.year + years) current.month current.day
          current.hour current.minute current.second with
      | some t => Except.ok t
      | none => Except.error ()
    | none => Except.error ()
  else if endsWithChar group_freq 'M' then
    match parseIntChars (dropLastChar group_freq) with
    | some months =>
      let nm0 : Int := (current.month : Int) + months
      let ny : Int := current.year + (nm0 - 1).fdiv 12
      let nm : Nat := ((nm0 - 1).emod 12 + 1).toNat
      match mkCFDatetime cal ny nm current.day current.hour current.minute
          current.second with
      | some t => Except.ok t
      | none => Except.error ()
    | none => Except.error ()
  else if endsWithChar group_freq 'D' then
    match parseIntChars (dropLastChar group_freq) with
    | some days => Except.ok (addSecondsCal cal current (86400 * days))
    | none => Except.error ()
  else if endsWithChar group_freq 'H' then
    match parseIntChars (dropLastChar group_freq) with
    | some hours => Except.ok (addSecondsCal cal current (3600 * hours))
    | none => Except.error ()
  else Except.error ()

/-- Embedding of the `while current < end` loop of `create_time_periods`:
compute `period_end`, clip it to `end`, emit `(current, period_end)`,
advance.  The fuel decreases once per iteration; exhausting it yields
`none` (the Python loop is still running). -/
def createTimePeriodsAux (cal : String) (e : CFDatetime) (gf : String) :
    Nat → CFDatetime → Option (Except Unit (List (CFDatetime × CFDatetime)))
  | 0, current =>
    if secsOf cal current < secsOf cal e then none else some (Except.ok [])
  | fuel + 1, current =>
    if secsOf cal current < secsOf cal e then
      match stepPeriodEnd cal current gf with
      | Except.error _ => some (Except.error ())
      | Except.ok pe0 =>
        let pe := if secsOf cal e < secsOf cal pe0 then e else pe0
        (createTimePeriodsAux cal e gf fuel pe).map
          (Except.map (fun rest => (current, pe) :: rest))
    else some (Except.ok [])

/-- Embedding of `time_utils.create_time_periods`. -/
def create_time_periods (fuel : Nat) (start e : CFDatetime) (group_freq : String)
    (calendar : String) : Option (Except Unit (List (CFDatetime × CFDatetime))) :=
  createTimePeriodsAux calendar e group_freq fuel start

theorem createTimePeriodsAux_spec (cal : String) (e : CFDatetime) (gf : String) :
    ∀ (fuel : Nat) (current : CFDatetime) (ps : List (CFDatetime × CFDatetime)),
      createTimePeriodsAux cal e gf fuel current = some (Except.ok ps) →
      (secsOf cal current < secsOf cal e →
        ps.head?.map Prod.fst = some current
        ∧ List.Chain' (fun p q => p.2 = q.1) ps
        ∧ ps.getLast?.map (fun p => secsOf cal p.2) = some (secsOf cal e))
      ∧ (¬ secsOf cal current < secsOf cal e → ps = []) := by
  intro fuel
  induction fuel with
  | zero =>
    intro current ps h
    simp only [createTimePeriodsAux] at h
    by_cases hlt : secsOf cal current < secsOf cal e
    · rw [if_pos hlt] at h; cases h
    · rw [if_neg hlt] at h
      injection h with h
      injection h with h
      subst h
      exact ⟨fun hlt2 => absurd hlt2 hlt, fun _ => rfl⟩
  | succ fuel ih =>
    intro current ps h
    simp only [createTimePeriodsAux] at h
    by_cases hlt : secsOf cal current < secsOf cal e
    · rw [if_pos hlt] at h
      split at h
      · cases h
      · rename_i pe0 hstep
        generalize hpe : (if secsOf cal e < secsOf cal pe0 then e else pe0) = pe at h
        have hpele : secsOf cal pe ≤ secsOf cal e := by
          rw [← hpe]
          by_cases hclip : secsOf cal e < secsOf cal pe0
          · rw [if_pos hclip]
          · rw [if_neg hclip]; omega
        cases hrec : createTimePeriodsAux cal e gf fuel pe with
        | none => rw [hrec] at h; simp at h
        | some res =>
          cases res with
          | error u => rw [hrec] at h; simp [Except.map] at h
          | ok rest =>
            rw [hrec] at h
            simp only [Option.map_some', Except.map, Option.some.injEq,
              Except.ok.injEq] at h
            subst h
            obtain ⟨ihpos, ihneg⟩ := ih pe rest hrec
            refine ⟨fun _ => ⟨rfl, ?_, ?_⟩, fun hn => absurd hlt hn⟩
            · rw [List.chain'_cons']
              by_cases hlt2 : secsOf cal pe < secsOf cal e
              · obtain ⟨hhead, hchain, _⟩ := ihpos hlt2
                refine ⟨?_, hchain⟩
                intro q hq
                cases rest with
                | nil => cases hq
                | cons r rs =>
                  have hr1 : r.1 = pe := by simpa using hhead
                  have hqr : r = q := by simpa using hq
                  rw [← hqr, hr1]
              · rw [ihneg hlt2]
                refine ⟨?_, List.chain'_nil⟩
                intro q hq
                simp at hq
            · by_cases hlt2 : secsOf cal pe < secsOf cal e
              · obtain ⟨hhead, _, hlast⟩ := ihpos hlt2
                cases rest with
                | nil => cases hhead
                | cons r rs =>
                  rw [List.getLast?_cons_cons]
                  exact hlast
              · rw [ihneg hlt2]
                have : secsOf cal pe = secsOf cal e := by omega
                simp [this]
    · rw [if_neg hlt] at h
      injection h with h
      injection h with h
      subst h
      exact ⟨fun hlt2 => absurd hlt2 hlt, fun _ => rfl⟩

/-- C3: whenever `create_time_periods` returns a period list (the loop
terminated and no `ValueError` was raised), the list is contiguous (each
period's end is structurally the next period's start), its first period
starts at the query start, and its final period's end equals the query
end by time value (the clip `period_end = end` makes it the very value);
and for `start >= end` the function returns the empty sequence — not an
error — for any fuel, grouping frequency (supported or not) and
calendar, because the loop body never runs. -/
theorem create_time_periods_spec (fuel : Nat) (start e : CFDatetime) (gf cal : String) :
    (∀ ps : List (CFDatetime × CFDatetime),
      create_time_periods fuel start e gf cal = some (Except.ok ps) →
      secsOf cal start < secsOf cal e →
      ps.head?.map Prod.fst = some start
      ∧ List.Chain' (fun p q => p.2 = q.1) ps
      ∧ ps.getLast?.map (fun p => secsOf cal p.2) = some (secsOf cal e))
    ∧ (¬ secsOf cal start < secsOf cal e →
      create_time_periods fuel start e gf cal = some (Except.ok [])) := by
  constructor
  · intro ps h hlt
    exact (createTimePeriodsAux_spec cal e gf fuel start ps h).1 hlt
  · intro hge
    unfold create_time_periods
    cases fuel with
    | zero => simp [createTimePeriodsAux, hge]
    | succ fuel => simp [createTimePeriodsAux, hge]

def ts2000 : CFDatetime := ⟨2000, 1, 1, 0, 0, 0⟩
def ts2010 : CFDatetime := ⟨2010, 1, 1, 0, 0, 0⟩
def ts2020 : CFDatetime := ⟨2020, 1, 1, 0, 0, 0⟩
def ts2030 : CFDatetime := ⟨2030, 1, 1, 0, 0, 0⟩

/-- Witness for C3: planning 2000-01-01 to 2030-01-01 by "10Y" under the
standard calendar yields three contiguous decade periods ending exactly
at 2030-01-01; and with start and end swapped the function returns the
empty sequence without an error even for an unsupported frequency. -/
theorem create_time_periods_spec_witness :
    (secsOf "standard" ts2000 < secsOf "standard" ts2030
      ∧ ([(ts2000, ts2010), (ts2010, ts2020), (ts2020, ts2030)].head?.map Prod.fst
          = some ts2000
        ∧ List.Chain' (fun p q => p.2 = q.1)
            [(ts2000, ts2010), (ts2010, ts2020), (ts2020, ts2030)]
        ∧ [(ts2000, ts2010), (ts2010, ts2020), (ts2020, ts2030)].getLast?.map
            (fun p => secsOf "standard" p.2) = some (secsOf "standard" ts2030)))
    ∧ create_time_periods 4 ts2030 ts2000 "bogus" "standard"
        = some (Except.ok []) := by
  constructor
  · have hrun : create_time_periods 4 ts2000 ts2030 "10Y" "standard"
        = some (Except.ok [(ts2000, ts2010), (ts2010, ts2020), (ts2020, ts2030)]) := rfl
    have hlt : secsOf "standard" ts2000 < secsOf "standard" ts2030 := by decide
    exact ⟨hlt,
      (create_time_periods_spec 4 ts2000 ts2030 "10Y" "standard").1
        [(ts2000, ts2010), (ts2010, ts2020), (ts2020, ts2030)] hrun hlt⟩
  · exact (create_time_periods_spec 4 ts2030 ts2000 "bogus" "standard").2 (by decide)
end DummyXarray
